import Mathlib

/-!
Verification of the carboncare scheduler application.

The repository is a generator script (`build_full_sceduler.py`) whose output
is a small Django booking app.  The behaviour under study lives in the
generated `booking/models.py`, `booking/views.py` and the templates; we embed
those here: relational stores become lists of records, the ORM calls become
list operations, the four views become pure state transformers, and the
`calendar.html` template becomes a rendering function producing a tree of
cells.
-/

namespace CarbonCare

/-- A calendar date, as stored by `Slot.date` (`models.DateField()`). -/
structure Date where
  year : Nat
  month : Nat
  day : Nat
deriving DecidableEq, Repr

/-- Order on dates used by `Slot.objects.order_by("date")`: lexicographic on
(year, month, day). -/
def Date.le (a b : Date) : Bool :=
  decide (a.year < b.year ∨ (a.year = b.year ∧
    (a.month < b.month ∨ (a.month = b.month ∧ a.day ≤ b.day))))

/-- `class Slot(models.Model)`: `date = DateField()`,
`time = CharField(max_length=20)`, `available = BooleanField(default=True)`,
plus the implicit autoincrement primary key `id`. -/
structure Slot where
  id : Nat
  date : Date
  time : String
  available : Bool
deriving DecidableEq, Repr

/-- `class Booking(models.Model)`: `name = CharField`, `email = EmailField`,
`slot = ForeignKey(Slot)` (stored as the slot's primary key), plus the
implicit autoincrement primary key `id`. -/
structure Booking where
  id : Nat
  name : String
  email : String
  slot : Nat
deriving DecidableEq, Repr

/-- The relational database: the two tables in insertion order, plus the
autoincrement counters that assign primary keys. -/
structure Store where
  slots : List Slot
  bookings : List Booking
  nextSlotId : Nat
  nextBookingId : Nat
deriving DecidableEq, Repr

/-- Well-formedness of the autoincrement counter: every stored slot's primary
key is below the next key to be assigned.  This holds of every store built by
the ORM and is preserved by every view (proved below). -/
def Wf (store : Store) : Prop :=
  ∀ s ∈ store.slots, s.id < store.nextSlotId

instance (store : Store) : Decidable (Wf store) := by
  unfold Wf; infer_instance

/-- `OWNER_PASSWORD = "admin123"` in `booking/views.py`. -/
def OWNER_PASSWORD : String := "admin123"

/-- The fixed list of time labels iterated by `calendar.html`:
`'9am 10am 11am 12pm 1pm 2pm 3pm 4pm'.split`. -/
def TIMES : List String :=
  ["9am", "10am", "11am", "12pm", "1pm", "2pm", "3pm", "4pm"]

/-- Django's `yesno:'1,0'` filter applied to a boolean. -/
def yesno (b : Bool) : String := if b then "1" else "0"

/-- `Slot.objects.filter(date__month=month)` in `index`: keeps every slot
whose date has the given month, in any year. -/
def monthSlots (store : Store) (month : Nat) : List Slot :=
  store.slots.filter (fun s => s.date.month == month)

/-- The dict comprehension `{(s.date, s.time): s.available for s in slots}`
followed by a lookup: later entries overwrite earlier ones, so the lookup
returns the availability of the last matching slot, or `none` if no slot of
the list has this (date, time). -/
def slotMapGet (slots : List Slot) (d : Date) (t : String) : Option Bool :=
  ((slots.filter (fun s => s.date == d && s.time == t)).getLast?).map Slot.available

/-- One rendered control of the calendar grid. -/
inductive Cell where
  | disabledBtn (time : String)
  | link (href : String) (time : String)
deriving DecidableEq, Repr

/-- One box of the calendar grid: a day of the displayed month with its time
cells, or the empty placeholder for a day of an adjacent month. -/
inductive DayBox where
  | dayCell (day : Nat) (cells : List Cell)
  | empty
deriving DecidableEq, Repr

/-- The per-(day, time) branch of `calendar.html`:
if `slot_map|get_item:(day,time)` is truthy render `<button disabled>`;
else if it `is not None` (so the value is `False`) render
`<a href="/book/{{ slot_map|get_item:(day,time)|yesno:'1,0' }}/">`;
else render nothing. -/
def renderCell (slots : List Slot) (d : Date) (t : String) : Option Cell :=
  match slotMapGet slots d t with
  | some true => some (.disabledBtn t)
  | some false => some (.link ("/book/" ++ yesno false ++ "/") t)
  | none => none

/-- The per-day branch of `calendar.html`: a day of the displayed month gets a
cell per time label, a day of an adjacent month gets an empty box. -/
def renderDay (slots : List Slot) (month : Nat) (d : Date) : DayBox :=
  if d.month == month then
    .dayCell d.day (TIMES.filterMap (fun t => renderCell slots d t))
  else
    .empty

/-- A rendered HTTP response: one constructor per template plus redirects and
the 404 raised by `get_object_or_404`. -/
inductive Response where
  | redirect (path : String)
  | notFound
  | loginPage
  | adminPage (slots : List Slot)
  | bookPage (s : Slot)
  | calPage (boxes : List DayBox)
deriving DecidableEq, Repr

/-- `def index(request)`: renders `calendar.html` over the days of the current
month (`today` and the grid `days` come from the server clock and
`calendar.Calendar().itermonthdates`), with the slot map built from the slots
filtered by `date__month` only. -/
def index (store : Store) (today : Date) (days : List Date) : Response :=
  .calPage (days.map (renderDay (monthSlots store today.month) today.month))

/-- `def admin_login(request)`: the session is the `is_owner` flag.  On POST
with the correct password the flag is set and the response redirects to
`/admin_panel/`; on any other request the login form is re-rendered and the
flag is untouched.  `password = none` models an absent POST field. -/
def admin_login (sess : Bool) (isPost : Bool) (password : Option String) :
    Bool × Response :=
  if isPost && password == some OWNER_PASSWORD then
    (true, .redirect "/admin_panel/")
  else
    (sess, .loginPage)

/-- `Slot.objects.create(date=..., time=..., available=True)`: appends a row
with the next primary key. -/
def create_slot (store : Store) (d : Date) (t : String) : Store :=
  { store with
    slots := store.slots ++ [⟨store.nextSlotId, d, t, true⟩],
    nextSlotId := store.nextSlotId + 1 }

/-- Order on slots induced by `order_by("date")`. -/
def slotLe (a b : Slot) : Prop := Date.le a.date b.date = true

instance : DecidableRel slotLe := fun a b => by
  unfold slotLe; infer_instance

/-- `Slot.objects.order_by("date")`: all slots sorted by date ascending. -/
def list_slots (store : Store) : List Slot :=
  store.slots.insertionSort slotLe

/-- `def admin_panel(request)`: without the owner flag, redirect to `/login/`;
on POST create a slot from the form fields; always render the full ordered
slot list.  `form = none` models a GET request. -/
def admin_panel (sess : Bool) (store : Store) (form : Option (Date × String)) :
    Store × Response :=
  if !sess then
    (store, .redirect "/login/")
  else
    match form with
    | some (d, t) =>
      let store2 := create_slot store d t
      (store2, .adminPage (list_slots store2))
    | none => (store, .adminPage (list_slots store))

/-- `get_object_or_404(Slot, id=slot_id, available=True)`: the first slot with
this primary key and `available=True`, or `none` (which the view surfaces as a
404). -/
def getBookableSlot (store : Store) (slot_id : Nat) : Option Slot :=
  store.slots.find? (fun s => s.id == slot_id && s.available)

/-- First write of the booking POST: `Booking.objects.create(name=...,
email=..., slot=slot)`. -/
def bookStep1 (store : Store) (s : Slot) (n e : String) : Store :=
  { store with
    bookings := store.bookings ++ [⟨store.nextBookingId, n, e, s.id⟩],
    nextBookingId := store.nextBookingId + 1 }

/-- Second write of the booking POST: `slot.available = False; slot.save()` —
the row with the slot's primary key is rewritten with `available=False`. -/
def bookStep2 (store : Store) (s : Slot) : Store :=
  { store with
    slots := store.slots.map
      (fun x => if x.id == s.id then { x with available := false } else x) }

/-- `def book_slot(request, slot_id)`: fetch via `get_object_or_404`; on POST
create the booking, then flip the slot unavailable, then redirect to `/`;
on GET render the booking form.  `form = none` models a GET request. -/
def book_slot (store : Store) (slot_id : Nat) (form : Option (String × String)) :
    Store × Response :=
  match getBookableSlot store slot_id with
  | none => (store, .notFound)
  | some s =>
    match form with
    | some (n, e) => (bookStep2 (bookStep1 store s n e) s, .redirect "/")
    | none => (store, .bookPage s)

/-- Full application state: the database plus the session's `is_owner` flag. -/
structure AppState where
  store : Store
  session : Bool
deriving DecidableEq, Repr

/-- One HTTP request to one of the four exposed routes. -/
inductive Op where
  | viewIndex (today : Date) (days : List Date)
  | loginGet
  | loginPost (password : Option String)
  | panelGet
  | panelPost (d : Date) (t : String)
  | bookGet (slot_id : Nat)
  | bookPost (slot_id : Nat) (n e : String)
deriving DecidableEq, Repr

/-- Dispatch of one request, per `booking/urls.py`. -/
def step (st : AppState) (op : Op) : AppState × Response :=
  match op with
  | .viewIndex today days => (st, index st.store today days)
  | .loginGet =>
    let r := admin_login st.session false none
    ({ st with session := r.1 }, r.2)
  | .loginPost pw =>
    let r := admin_login st.session true pw
    ({ st with session := r.1 }, r.2)
  | .panelGet =>
    let r := admin_panel st.session st.store none
    ({ st with store := r.1 }, r.2)
  | .panelPost d t =>
    let r := admin_panel st.session st.store (some (d, t))
    ({ st with store := r.1 }, r.2)
  | .bookGet i =>
    let r := book_slot st.store i none
    ({ st with store := r.1 }, r.2)
  | .bookPost i n e =>
    let r := book_slot st.store i (some (n, e))
    ({ st with store := r.1 }, r.2)

/-- Sequential execution of a list of requests (single-writer model). -/
def run (st : AppState) (ops : List Op) : AppState :=
  ops.foldl (fun s op => (step s op).1) st

/-- The primary key `i` is in use and every stored row carrying it is
unavailable: the state of a slot after the booking flow has hit it. -/
def BookedOut (store : Store) (i : Nat) : Prop :=
  (∃ s ∈ store.slots, s.id = i) ∧ ∀ s ∈ store.slots, s.id = i → s.available = false

instance (store : Store) (i : Nat) : Decidable (BookedOut store i) := by
  unfold BookedOut; infer_instance

lemma wf_step (st : AppState) (op : Op) (hwf : Wf st.store) :
    Wf (step st op).1.store := by
  cases op with
  | viewIndex today days => exact hwf
  | loginGet => exact hwf
  | loginPost pw => exact hwf
  | panelGet =>
    simp only [step, admin_panel]
    cases st.session <;> simp <;> exact hwf
  | panelPost d t =>
    simp only [step, admin_panel]
    cases st.session with
    | false => simpa using hwf
    | true =>
      simp only [Bool.not_true, Bool.false_eq_true, if_false]
      intro s hs
      simp only [create_slot, List.mem_append, List.mem_singleton] at hs
      rcases hs with hs | hs
      · have := hwf s hs; simp only [create_slot]; omega
      · subst hs; simp [create_slot]
  | bookGet i =>
    simp only [step, book_slot]
    cases getBookableSlot st.store i <;> simpa using hwf
  | bookPost i n e =>
    simp only [step, book_slot]
    cases hg : getBookableSlot st.store i with
    | none => simpa using hwf
    | some s =>
      intro x hx
      simp only [bookStep2, bookStep1, List.mem_map] at hx
      obtain ⟨y, hy, hxy⟩ := hx
      subst hxy
      have := hwf y hy
      simp only [bookStep2, bookStep1]
      split <;> simpa

lemma bookedOut_step (st : AppState) (op : Op) (i : Nat)
    (hwf : Wf st.store) (h : BookedOut st.store i) :
    BookedOut (step st op).1.store i := by
  obtain ⟨⟨s0, hs0, hs0i⟩, hall⟩ := h
  cases op with
  | viewIndex today days => exact ⟨⟨s0, hs0, hs0i⟩, hall⟩
  | loginGet => exact ⟨⟨s0, hs0, hs0i⟩, hall⟩
  | loginPost pw => exact ⟨⟨s0, hs0, hs0i⟩, hall⟩
  | panelGet =>
    simp only [step, admin_panel]
    cases st.session <;> simp <;> exact ⟨⟨s0, hs0, hs0i⟩, hall⟩
  | panelPost d t =>
    simp only [step, admin_panel]
    cases st.session with
    | false => simpa using ⟨⟨s0, hs0, hs0i⟩, hall⟩
    | true =>
      simp only [Bool.not_true, Bool.false_eq_true, if_false]
      constructor
      · exact ⟨s0, by simp [create_slot, hs0], hs0i⟩
      · intro s hs hsi
        simp only [create_slot, List.mem_append, List.mem_singleton] at hs
        rcases hs with hs | hs
        · exact hall s hs hsi
        · exfalso
          have hlt := hwf s0 hs0
          subst hs
          simp only at hsi
          omega
  | bookGet j =>
    simp only [step, book_slot]
    cases getBookableSlot st.store j <;> simpa using ⟨⟨s0, hs0, hs0i⟩, hall⟩
  | bookPost j n e =>
    simp only [step, book_slot]
    cases hg : getBookableSlot st.store j with
    | none => simpa using ⟨⟨s0, hs0, hs0i⟩, hall⟩
    | some s =>
      constructor
      · refine ⟨if s0.id == s.id then { s0 with available := false } else s0, ?_, ?_⟩
        · simp only [bookStep2, bookStep1, List.mem_map]
          exact ⟨s0, hs0, rfl⟩
        · split <;> simpa
      · intro x hx hxi
        simp only [bookStep2, bookStep1, List.mem_map] at hx
        obtain ⟨y, hy, hxy⟩ := hx
        subst hxy
        by_cases hid : (y.id == s.id) = true
        · simp [hid]
        · simp only [hid, if_false] at hxi ⊢
          exact hall y hy hxi

lemma bookedOut_run (st : AppState) (ops : List Op) (i : Nat)
    (hwf : Wf st.store) (h : BookedOut st.store i) :
    BookedOut (run st ops).store i := by
  induction ops generalizing st with
  | nil => exact h
  | cons op rest ih =>
    exact ih (step st op).1 (wf_step st op hwf) (bookedOut_step st op i hwf h)

lemma wf_run (st : AppState) (ops : List Op) (hwf : Wf st.store) :
    Wf (run st ops).store := by
  induction ops generalizing st with
  | nil => exact hwf
  | cons op rest ih => exact ih (step st op).1 (wf_step st op hwf)

lemma bookPost_success_bookedOut (st : AppState) (i : Nat) (n e : String)
    (hsucc : (step st (.bookPost i n e)).2 = .redirect "/") :
    BookedOut (step st (.bookPost i n e)).1.store i := by
  simp only [step, book_slot] at hsucc ⊢
  cases hg : getBookableSlot st.store i with
  | none => rw [hg] at hsucc; simp at hsucc
  | some s =>
    have hp := List.find?_some hg
    have hmem := List.mem_of_find?_eq_some hg
    simp only [Bool.and_eq_true, beq_iff_eq] at hp
    constructor
    · refine ⟨{ s with available := false }, ?_, hp.1⟩
      simp only [bookStep2, bookStep1, List.mem_map]
      exact ⟨s, hmem, by simp⟩
    · intro x hx hxi
      simp only [bookStep2, bookStep1, List.mem_map] at hx
      obtain ⟨y, hy, hxy⟩ := hx
      subst hxy
      by_cases hid : (y.id == s.id) = true
      · simp [hid]
      · exfalso
        simp only [hid, if_false] at hxi
        simp only [beq_iff_eq] at hid
        exact hid (hxi.trans hp.1.symm)

lemma bookedOut_notFound (store : Store) (i : Nat)
    (h : ∀ s ∈ store.slots, s.id = i → s.available = false) :
    getBookableSlot store i = none := by
  rw [getBookableSlot, List.find?_eq_none]
  intro x hx
  simp only [Bool.and_eq_true, beq_iff_eq, not_and]
  intro hxi
  simp [h x hx hxi]

/-- A one-slot store used to evaluate the theorems on concrete inputs. -/
def exSlot : Slot := ⟨1, ⟨2024, 6, 10⟩, "9am", true⟩

/-- A store holding just `exSlot`, with the autoincrement counters ahead of
the used keys. -/
def exStore : Store := ⟨[exSlot], [], 2, 1⟩

/-- `exStore` with a logged-out session. -/
def exState : AppState := ⟨exStore, false⟩

/-- C1: once a booking POST against slot id `i` succeeds (it responds with the
redirect to `/`), every row with that primary key is unavailable in every
state reachable by any further sequence of requests: no exposed operation
ever sets an existing slot's `available` back to true. -/
theorem C1_booked_slot_stays_unavailable
    (st : AppState) (i : Nat) (n e : String) (ops : List Op)
    (hwf : Wf st.store)
    (hsucc : (step st (.bookPost i n e)).2 = .redirect "/") :
    ∀ s ∈ (run (step st (.bookPost i n e)).1 ops).store.slots,
      s.id = i → s.available = false := by
  have h1 := bookPost_success_bookedOut st i n e hsucc
  have h2 := bookedOut_run (step st (.bookPost i n e)).1 ops i
    (wf_step st (.bookPost i n e) hwf) h1
  exact h2.2

/-- C1 witness: booking the only slot of `exStore` and then issuing further
requests leaves that slot unavailable. -/
theorem C1_booked_slot_stays_unavailable_witness :
    Wf exState.store ∧
    (step exState (.bookPost 1 "Alice" "a@x.com")).2 = .redirect "/" ∧
    ∀ s ∈ (run (step exState (.bookPost 1 "Alice" "a@x.com")).1
        [.bookGet 1, .panelGet, .loginPost (some "admin123")]).store.slots,
      s.id = 1 → s.available = false :=
  ⟨by decide, by decide,
    C1_booked_slot_stays_unavailable exState 1 "Alice" "a@x.com"
      [.bookGet 1, .panelGet, .loginPost (some "admin123")]
      (by decide) (by decide)⟩

/-- C3: `get_object_or_404(Slot, id=slot_id, available=True)` yields the 404
exactly when no stored slot has this id together with `available=true`; and
once a booking POST on id `i` has succeeded, every later GET or POST of
`/book/i/`, after any interleaved requests, responds 404. -/
theorem C3_get_bookable_slot_not_found :
    (∀ (store : Store) (i : Nat),
      getBookableSlot store i = none ↔
        ¬ ∃ s ∈ store.slots, s.id = i ∧ s.available = true) ∧
    (∀ (st : AppState) (i : Nat) (n e : String),
      Wf st.store →
      (step st (.bookPost i n e)).2 = .redirect "/" →
      ∀ (ops : List Op) (n2 e2 : String),
        (step (run (step st (.bookPost i n e)).1 ops) (.bookGet i)).2 = .notFound ∧
        (step (run (step st (.bookPost i n e)).1 ops) (.bookPost i n2 e2)).2 =
          .notFound) := by
  constructor
  · intro store i
    rw [getBookableSlot, List.find?_eq_none]
    constructor
    · rintro h ⟨s, hs, hsi, hsa⟩
      have := h s hs
      simp [hsi, hsa] at this
    · intro h x hx
      simp only [Bool.and_eq_true, beq_iff_eq, not_and]
      intro hxi
      by_contra hxa
      exact h ⟨x, hx, hxi, by simpa using hxa⟩
  · intro st i n e hwf hsucc ops n2 e2
    have h1 := bookPost_success_bookedOut st i n e hsucc
    have h2 := bookedOut_run (step st (.bookPost i n e)).1 ops i
      (wf_step st (.bookPost i n e) hwf) h1
    have hnone := bookedOut_notFound _ i h2.2
    obtain ⟨Y, hY⟩ : ∃ Y, run (step st (.bookPost i n e)).1 ops = Y := ⟨_, rfl⟩
    rw [hY] at hnone ⊢
    constructor <;> simp [step, book_slot, hnone]

/-- C3 witness: in `exStore`, booking slot 1 then attempting to book it again
(GET and POST) yields 404 both times. -/
theorem C3_get_bookable_slot_not_found_witness :
    Wf exState.store ∧
    (step exState (.bookPost 1 "Alice" "a@x.com")).2 = .redirect "/" ∧
    (step (run (step exState (.bookPost 1 "Alice" "a@x.com")).1 [])
      (.bookGet 1)).2 = .notFound ∧
    (step (run (step exState (.bookPost 1 "Alice" "a@x.com")).1 [])
      (.bookPost 1 "Bob" "b@x.com")).2 = .notFound :=
  ⟨by decide, by decide,
    (C3_get_bookable_slot_not_found.2 exState 1 "Alice" "a@x.com"
      (by decide) (by decide) [] "Bob" "b@x.com").1,
    (C3_get_bookable_slot_not_found.2 exState 1 "Alice" "a@x.com"
      (by decide) (by decide) [] "Bob" "b@x.com").2⟩

/-- C5: a login POST with the correct owner password sets the session's
`is_owner` flag and redirects to `/admin_panel/`, after which the admin panel
renders in the same session; with any other password (or an absent field) the
flag stays unset, the login form is re-rendered, and the admin panel still
redirects to `/login/`. -/
theorem C5_owner_login_gate :
    (∀ st : AppState,
      (step st (.loginPost (some OWNER_PASSWORD))).1.session = true ∧
      (step st (.loginPost (some OWNER_PASSWORD))).2 = .redirect "/admin_panel/" ∧
      (step (step st (.loginPost (some OWNER_PASSWORD))).1 .panelGet).2 =
        .adminPage (list_slots st.store)) ∧
    (∀ (st : AppState) (p : Option String),
      st.session = false → p ≠ some OWNER_PASSWORD →
      (step st (.loginPost p)).1.session = false ∧
      (step st (.loginPost p)).2 = .loginPage ∧
      (step (step st (.loginPost p)).1 .panelGet).2 = .redirect "/login/") := by
  constructor
  · intro st
    simp [step, admin_login, admin_panel]
  · intro st p hs hp
    have hpb : (p == some OWNER_PASSWORD) = false := by simpa using hp
    simp [step, admin_login, hpb, hs, admin_panel]

/-- C5 witness: from a logged-out session, the wrong password leaves the
admin panel inaccessible. -/
theorem C5_owner_login_gate_witness :
    exState.session = false ∧ some "wrong" ≠ some OWNER_PASSWORD ∧
    (step exState (.loginPost (some "wrong"))).1.session = false ∧
    (step exState (.loginPost (some "wrong"))).2 = .loginPage ∧
    (step (step exState (.loginPost (some "wrong"))).1 .panelGet).2 =
      .redirect "/login/" :=
  ⟨by decide, by decide,
    (C5_owner_login_gate.2 exState (some "wrong") (by decide) (by decide)).1,
    (C5_owner_login_gate.2 exState (some "wrong") (by decide) (by decide)).2.1,
    (C5_owner_login_gate.2 exState (some "wrong") (by decide) (by decide)).2.2⟩

/-- C6: a POST to `/admin_panel/` from a session without the owner flag
changes nothing — neither the database nor the session — and responds with
the redirect to `/login/`. -/
theorem C6_unauthorized_panel_post_is_noop (st : AppState) (d : Date) (t : String)
    (h : st.session = false) :
    (step st (.panelPost d t)).1 = st ∧
    (step st (.panelPost d t)).2 = .redirect "/login/" := by
  obtain ⟨store, sess⟩ := st
  subst h
  simp [step, admin_panel]

/-- C6 witness: an unauthenticated slot-creation POST on `exState`. -/
theorem C6_unauthorized_panel_post_is_noop_witness :
    exState.session = false ∧
    (step exState (.panelPost ⟨2024, 7, 1⟩ "2pm")).1 = exState ∧
    (step exState (.panelPost ⟨2024, 7, 1⟩ "2pm")).2 = .redirect "/login/" :=
  ⟨by decide,
    (C6_unauthorized_panel_post_is_noop exState ⟨2024, 7, 1⟩ "2pm" (by decide)).1,
    (C6_unauthorized_panel_post_is_noop exState ⟨2024, 7, 1⟩ "2pm" (by decide)).2⟩

/-- C7: `create_slot` checks no (date, time) uniqueness: an owner-authorized
POST duplicating an existing slot's date and time keeps the old slot and adds
a second, distinct slot (fresh id, `available=true`) for the same cell. -/
theorem C7_duplicate_slots_permitted (store : Store) (s0 : Slot)
    (hwf : Wf store) (hmem : s0 ∈ store.slots) :
    s0 ∈ (admin_panel true store (some (s0.date, s0.time))).1.slots ∧
    ∃ s1 ∈ (admin_panel true store (some (s0.date, s0.time))).1.slots,
      s1.id ≠ s0.id ∧ s1.date = s0.date ∧ s1.time = s0.time ∧
      s1.available = true := by
  constructor
  · simp [admin_panel, create_slot, hmem]
  · refine ⟨⟨store.nextSlotId, s0.date, s0.time, true⟩, ?_, ?_, rfl, rfl, rfl⟩
    · simp [admin_panel, create_slot]
    · show store.nextSlotId ≠ s0.id
      have := hwf s0 hmem
      omega

/-- C7 witness: duplicating `exSlot`'s cell in `exStore`. -/
theorem C7_duplicate_slots_permitted_witness :
    Wf exStore ∧ exSlot ∈ exStore.slots ∧
    (exSlot ∈ (admin_panel true exStore (some (exSlot.date, exSlot.time))).1.slots ∧
    ∃ s1 ∈ (admin_panel true exStore (some (exSlot.date, exSlot.time))).1.slots,
      s1.id ≠ exSlot.id ∧ s1.date = exSlot.date ∧ s1.time = exSlot.time ∧
      s1.available = true) :=
  ⟨by decide, by decide,
    C7_duplicate_slots_permitted exStore exSlot (by decide) (by decide)⟩

lemma date_le_total (a b : Date) : Date.le a b = true ∨ Date.le b a = true := by
  simp only [Date.le, decide_eq_true_eq]
  omega

lemma date_le_trans (a b c : Date) (hab : Date.le a b = true)
    (hbc : Date.le b c = true) : Date.le a c = true := by
  simp only [Date.le, decide_eq_true_eq] at hab hbc ⊢
  omega

instance : IsTotal Slot slotLe :=
  ⟨fun a b => date_le_total a.date b.date⟩

instance : IsTrans Slot slotLe :=
  ⟨fun a b c hab hbc => date_le_trans a.date b.date c.date hab hbc⟩

/-- C8: the sequence the admin panel renders (`Slot.objects.order_by("date")`)
is ordered by date ascending — each adjacent pair is `≤` in date — and is a
permutation of the stored slots (nothing added, nothing dropped). -/
theorem C8_admin_slot_list_sorted_by_date (store : Store) :
    List.Chain' (fun a b : Slot => Date.le a.date b.date = true)
      (list_slots store) ∧
    (list_slots store).Perm store.slots := by
  constructor
  · exact (List.sorted_insertionSort slotLe store.slots).chain'
  · exact List.perm_insertionSort slotLe store.slots

/-- C9: a GET of `/book/<id>/` writes nothing, and a successful booking POST
appends exactly one booking row, keeps every slot's id, date and time intact,
and leaves every slot whose id is not the target completely unchanged. -/
theorem C9_booking_writes_are_framed (store : Store) (i : Nat) (n e : String)
    (s : Slot) (h : getBookableSlot store i = some s) :
    (∀ j : Nat, (book_slot store j none).1 = store) ∧
    (book_slot store i (some (n, e))).1.bookings =
      store.bookings ++ [⟨store.nextBookingId, n, e, s.id⟩] ∧
    (book_slot store i (some (n, e))).1.slots.map
        (fun x => (x.id, x.date, x.time)) =
      store.slots.map (fun x => (x.id, x.date, x.time)) ∧
    ∀ x ∈ store.slots, x.id ≠ i → x ∈ (book_slot store i (some (n, e))).1.slots := by
  have hp := List.find?_some h
  simp only [Bool.and_eq_true, beq_iff_eq] at hp
  refine ⟨?_, ?_, ?_, ?_⟩
  · intro j
    simp only [book_slot]
    cases getBookableSlot store j <;> rfl
  · simp [book_slot, h, bookStep1, bookStep2]
  · simp only [book_slot, h, bookStep2, bookStep1, List.map_map]
    apply List.map_congr_left
    intro x _
    by_cases hid : (x.id == s.id) = true <;> simp [Function.comp, hid]
  · intro x hx hxi
    simp only [book_slot, h, bookStep2, bookStep1]
    refine List.mem_map.2 ⟨x, hx, ?_⟩
    have hid : (x.id == s.id) = false := by
      rw [beq_eq_false_iff_ne]
      exact fun hh => hxi (hh.trans hp.1)
    simp [hid]

/-- C9 witness: booking `exSlot` from `exStore`. -/
theorem C9_booking_writes_are_framed_witness :
    getBookableSlot exStore 1 = some exSlot ∧
    (book_slot exStore 1 none).1 = exStore ∧
    (book_slot exStore 1 (some ("Alice", "a@x.com"))).1.bookings =
      exStore.bookings ++ [⟨exStore.nextBookingId, "Alice", "a@x.com", exSlot.id⟩] :=
  ⟨by decide,
    (C9_booking_writes_are_framed exStore 1 "Alice" "a@x.com" exSlot (by decide)).1 1,
    (C9_booking_writes_are_framed exStore 1 "Alice" "a@x.com" exSlot (by decide)).2.1⟩

/-- A copy of `exSlot` already booked (`available=false`), with its booking. -/
def exStoreBooked : Store :=
  ⟨[⟨1, ⟨2024, 6, 10⟩, "9am", false⟩], [⟨1, "Alice", "a@x.com", 1⟩], 2, 2⟩

/-- C2: the `calendar.html` template renders the OPPOSITE of the claim.  The
slot map sends (date, time) to the availability boolean, so the truthy branch
— the disabled button — fires exactly for an available slot, and the
`is not None` branch — the link — fires exactly for a booked one; moreover
the link's href interpolates `yesno` of the boolean, yielding the constant
`/book/0/`, never the slot's id.  Evaluated here on a June 2024 calendar with
one available slot and one booked slot. -/
theorem C2_calendar_renders_inverted_availability :
    index exStore ⟨2024, 6, 10⟩ [⟨2024, 6, 10⟩] =
      .calPage [.dayCell 10 [.disabledBtn "9am"]] ∧
    index exStoreBooked ⟨2024, 6, 10⟩ [⟨2024, 6, 10⟩] =
      .calPage [.dayCell 10 [.link "/book/0/" "9am"]] := by
  decide

/-- C4 counterexample: the booking POST is `bookStep2 ∘ bookStep1` — booking
creation first, availability flip second — so the state after the first write
alone (the interruption point) holds the new booking while the slot is still
available; it is not an unavailable-but-bookingless slot, contradicting the
claim that the availability flip precedes booking creation. -/
theorem C4_flip_does_not_precede_creation :
    (book_slot exStore 1 (some ("Alice", "a@x.com"))).1 =
      bookStep2 (bookStep1 exStore exSlot "Alice" "a@x.com") exSlot ∧
    ¬ ((bookStep1 exStore exSlot "Alice" "a@x.com").bookings = [] ∧
        ∀ s ∈ (bookStep1 exStore exSlot "Alice" "a@x.com").slots,
          s.available = false) ∧
    (bookStep1 exStore exSlot "Alice" "a@x.com").bookings =
      [⟨1, "Alice", "a@x.com", 1⟩] ∧
    ∀ s ∈ (bookStep1 exStore exSlot "Alice" "a@x.com").slots,
      s.available = true := by
  decide

/-- C4 (amended): the booking POST performs two separate non-atomic writes in
the order create-the-Booking then flip-the-Slot-unavailable; an interruption
between them leaves the new Booking referencing a Slot that is still
available (the slot table untouched), not an orphan unavailable slot. -/
theorem C4_create_then_flip_non_atomic (store : Store) (i : Nat) (n e : String)
    (s : Slot) (h : getBookableSlot store i = some s) :
    (book_slot store i (some (n, e))).1 = bookStep2 (bookStep1 store s n e) s ∧
    (bookStep1 store s n e).slots = store.slots ∧
    (bookStep1 store s n e).bookings =
      store.bookings ++ [⟨store.nextBookingId, n, e, s.id⟩] ∧
    s ∈ store.slots ∧ s.available = true := by
  have hp := List.find?_some h
  have hmem := List.mem_of_find?_eq_some h
  simp only [Bool.and_eq_true, beq_iff_eq] at hp
  exact ⟨by simp [book_slot, h], rfl, rfl, hmem, hp.2⟩

/-- C4 witness: the two writes on `exStore`. -/
theorem C4_create_then_flip_non_atomic_witness :
    getBookableSlot exStore 1 = some exSlot ∧
    (bookStep1 exStore exSlot "Alice" "a@x.com").slots = exStore.slots ∧
    exSlot.available = true :=
  ⟨by decide,
    (C4_create_then_flip_non_atomic exStore 1 "Alice" "a@x.com" exSlot
      (by decide)).2.1,
    (C4_create_then_flip_non_atomic exStore 1 "Alice" "a@x.com" exSlot
      (by decide)).2.2.2.2⟩

/-- Modelled from the spec for comparison: the slots of the displayed month
AND the displayed year (`GET /` is specified as "render calendar for current
server-clock month/year"), where the source filters by `date__month` only. -/
def monthYearSlots (store : Store) (month year : Nat) : List Slot :=
  store.slots.filter (fun s => s.date.month == month && s.date.year == year)

/-- Modelled from the spec for comparison: `index` with the slot map built
from `monthYearSlots` instead of `monthSlots`. -/
def indexMonthYear (store : Store) (today : Date) (days : List Date) : Response :=
  .calPage (days.map (renderDay (monthYearSlots store today.month today.year)
    today.month))

lemma monthSlots_filter_eq (store : Store) (month year : Nat) (d : Date)
    (t : String) (hm : d.month = month) (hy : d.year = year) :
    (monthSlots store month).filter (fun s => s.date == d && s.time == t) =
    (monthYearSlots store month year).filter
      (fun s => s.date == d && s.time == t) := by
  subst hm; subst hy
  unfold monthSlots monthYearSlots
  rw [List.filter_filter, List.filter_filter]
  apply List.filter_congr
  intro s _
  by_cases hsd : (s.date == d) = true
  · have hd : s.date = d := by simpa using hsd
    simp [hd]
  · simp [hsd]

lemma renderCell_month_year (store : Store) (month year : Nat) (d : Date)
    (t : String) (hm : d.month = month) (hy : d.year = year) :
    renderCell (monthSlots store month) d t =
    renderCell (monthYearSlots store month year) d t := by
  unfold renderCell slotMapGet
  rw [monthSlots_filter_eq store month year d t hm hy]

/-- C10: `index` filters slots by month only, but the template looks a slot up
only at days of the displayed month, and whenever those days lie in the
displayed year (as the days produced by `itermonthdates(year, month)` do) the
rendered page coincides with the one built from slots filtered by both the
current month and the current year. -/
theorem C10_month_filter_equals_month_year_filter (store : Store) (today : Date)
    (days : List Date)
    (h : ∀ d ∈ days, d.month = today.month → d.year = today.year) :
    index store today days = indexMonthYear store today days := by
  unfold index indexMonthYear
  congr 1
  apply List.map_congr_left
  intro d hd
  unfold renderDay
  by_cases hdm : (d.month == today.month) = true
  · have hm : d.month = today.month := by simpa using hdm
    have hy : d.year = today.year := h d hd hm
    have hcells : (fun t => renderCell (monthSlots store today.month) d t) =
        fun t => renderCell (monthYearSlots store today.month today.year) d t :=
      funext fun t => renderCell_month_year store today.month today.year d t hm hy
    simp only [hdm, if_true, hcells]
  · simp [hdm]

/-- C10 witness: a store holding a June 2024 slot and a June 2023 slot,
rendered over a June 2024 grid that spills into late May and early July
2024. -/
theorem C10_month_filter_equals_month_year_filter_witness :
    (∀ d ∈ [Date.mk 2024 5 27, Date.mk 2024 6 10, Date.mk 2024 7 1],
      d.month = (Date.mk 2024 6 15).month → d.year = (Date.mk 2024 6 15).year) ∧
    index ⟨[⟨1, ⟨2024, 6, 10⟩, "9am", true⟩, ⟨2, ⟨2023, 6, 10⟩, "10am", true⟩],
        [], 3, 1⟩ ⟨2024, 6, 15⟩
        [Date.mk 2024 5 27, Date.mk 2024 6 10, Date.mk 2024 7 1] =
      indexMonthYear ⟨[⟨1, ⟨2024, 6, 10⟩, "9am", true⟩,
        ⟨2, ⟨2023, 6, 10⟩, "10am", true⟩], [], 3, 1⟩ ⟨2024, 6, 15⟩
        [Date.mk 2024 5 27, Date.mk 2024 6 10, Date.mk 2024 7 1] :=
  ⟨by decide,
    C10_month_filter_equals_month_year_filter
      ⟨[⟨1, ⟨2024, 6, 10⟩, "9am", true⟩, ⟨2, ⟨2023, 6, 10⟩, "10am", true⟩], [], 3, 1⟩
      ⟨2024, 6, 15⟩
      [Date.mk 2024 5 27, Date.mk 2024 6 10, Date.mk 2024 7 1] (by decide)⟩

end CarbonCare
